import Mathlib

/-!
Shallow embedding of the kamel render backend (crates/kamel-render) in Lean 4,
covering the code that the specification's claims are about:

* surface-format selection  (src/backend/swapchain.rs: SurfaceFormats,
  Swapchain::new)
* queue-family classification and queue-creation requests
  (src/backend/device.rs: find_direct_queue_family_index,
  find_queue_family_index, find_queue_family_indices, Device::new)
* physical-device selection (src/backend/instance.rs:
  Instance::find_optimal_physical_device)
* capability sets (src/backend/instance.rs: Layers, Extensions;
  src/backend/device.rs: Extensions)
* API-version negotiation (src/renderer/mod.rs: initialize)
* swapchain teardown (src/backend/swapchain.rs: impl Drop for Swapchain)

Driver calls are modelled as pure oracles passed in as arguments; Rust
`Option`/`Result` become `Option`/`Except`; a Rust panic (assert!, index out
of bounds) becomes `none` of an `Option`-returning model.  Vulkan C strings
compared with strcmp become `String`s compared with equality.  Machine
integers (`u32` queue counts, `u64` heap sizes) are `Nat`; the only
arithmetic performed on them by the embedded code is comparison and the
device-local heap-size accumulation, which wraps modulo 2^64 like the
release-mode `u64` addition in the source.
-/

set_option autoImplicit false

namespace Kamel

/-! ## Vulkan value types used by the embedded code -/

/-- The `vk::Format` values the backend inspects; every other format code is
collapsed into `OTHER`. -/
inductive Format where
  | R8G8B8A8_SRGB
  | B8G8R8A8_SRGB
  | R8G8B8A8_UNORM
  | B8G8R8A8_UNORM
  | R16G16B16A16_SFLOAT
  | OTHER (code : Nat)
deriving DecidableEq

/-- The `vk::ColorSpaceKHR` values the backend inspects. -/
inductive ColorSpaceKHR where
  | SRGB_NONLINEAR
  | EXTENDED_SRGB_LINEAR_EXT
  | OTHER (code : Nat)
deriving DecidableEq

/-- `vk::SurfaceFormatKHR`: a format together with a color space. -/
structure SurfaceFormatKHR where
  format : Format
  color_space : ColorSpaceKHR
deriving DecidableEq

/-- The error produced by `Swapchain::new` when no surface format matches
(`anyhow!("Failed to find surface format")`, named `NoSuitableSurfaceFormat`
by the specification). -/
inductive SwapchainError where
  | NoSuitableSurfaceFormat
deriving DecidableEq

/-! ## SurfaceFormats (swapchain.rs lines 42-56) -/

namespace SurfaceFormats

/-- The constant `FORMATS` array of `SurfaceFormats::find_ldr_format`. -/
def FORMATS : List Format :=
  [Format.R8G8B8A8_SRGB, Format.B8G8R8A8_SRGB, Format.R8G8B8A8_UNORM, Format.B8G8R8A8_UNORM]

/-- The predicate tested by `find_ldr_format`'s closure:
`FORMATS.contains(&f.format)`. -/
def ldrCandidate (f : SurfaceFormatKHR) : Bool :=
  FORMATS.contains f.format

/-- The predicate tested by `find_hdr_format`'s closure:
`f.format == R16G16B16A16_SFLOAT && f.color_space == EXTENDED_SRGB_LINEAR_EXT`. -/
def hdrCandidate (f : SurfaceFormatKHR) : Bool :=
  f.format == Format.R16G16B16A16_SFLOAT && f.color_space == ColorSpaceKHR.EXTENDED_SRGB_LINEAR_EXT

/-- `SurfaceFormats::find_ldr_format`: first entry of the supported-format
list whose format is contained in `FORMATS`. -/
def find_ldr_format (supported_formats : List SurfaceFormatKHR) : Option SurfaceFormatKHR :=
  supported_formats.find? ldrCandidate

/-- `SurfaceFormats::find_hdr_format`: first entry of the supported-format
list that is `R16G16B16A16_SFLOAT` with extended-sRGB-linear color space. -/
def find_hdr_format (supported_formats : List SurfaceFormatKHR) : Option SurfaceFormatKHR :=
  supported_formats.find? hdrCandidate

end SurfaceFormats

/-- The surface-format selection performed in `Swapchain::new`
(swapchain.rs lines 173-176):
`find_hdr_format().or_else(|| find_ldr_format()).ok_or_else(error)`. -/
def used_surface_format (supported_formats : List SurfaceFormatKHR) :
    Except SwapchainError SurfaceFormatKHR :=
  match (SurfaceFormats.find_hdr_format supported_formats).orElse
      (fun _ => SurfaceFormats.find_ldr_format supported_formats) with
  | some f => Except.ok f
  | none => Except.error SwapchainError.NoSuitableSurfaceFormat

/-- Modelled from the spec (for comparison only, not from the source): the
claim's LDR policy, "the first format in the fixed preference order
RGBA8-sRGB, BGRA8-sRGB, RGBA8-UNORM, BGRA8-UNORM that the list contains". -/
def spec_preference_order_ldr_format (supported_formats : List SurfaceFormatKHR) :
    Option SurfaceFormatKHR :=
  SurfaceFormats.FORMATS.findSome? fun fmt =>
    supported_formats.find? fun f => f.format == fmt

/-- Modelled from the spec (for comparison only): the claim's whole format
selection, extended-range first, otherwise the preference-order LDR policy. -/
def spec_surface_format_selection (supported_formats : List SurfaceFormatKHR) :
    Except SwapchainError SurfaceFormatKHR :=
  match (SurfaceFormats.find_hdr_format supported_formats).orElse
      (fun _ => spec_preference_order_ldr_format supported_formats) with
  | some f => Except.ok f
  | none => Except.error SwapchainError.NoSuitableSurfaceFormat

/-! ## Queue flags and queue-family properties (device.rs) -/

/-- The three `vk::QueueFlags` bits the backend masks on.  The source only
ever intersects flag sets with masks built from these three bits, so other
bits of the bitmask can never influence any embedded computation. -/
structure QueueFlags where
  graphics : Bool
  compute : Bool
  transfer : Bool
deriving DecidableEq

namespace QueueFlags

def GRAPHICS : QueueFlags := ⟨true, false, false⟩
def COMPUTE : QueueFlags := ⟨false, true, false⟩
def TRANSFER : QueueFlags := ⟨false, false, true⟩

/-- `vk::QueueFlags::empty()`. -/
def empty : QueueFlags := ⟨false, false, false⟩

/-- Bitwise `&` on the three modelled bits. -/
def inter (a b : QueueFlags) : QueueFlags :=
  ⟨a.graphics && b.graphics, a.compute && b.compute, a.transfer && b.transfer⟩

/-- Bitwise `|` on the three modelled bits. -/
def union (a b : QueueFlags) : QueueFlags :=
  ⟨a.graphics || b.graphics, a.compute || b.compute, a.transfer || b.transfer⟩

/-- The test `(flags & mask) == mask` of the source. -/
def containsFlags (flags mask : QueueFlags) : Bool :=
  flags.inter mask == mask

/-- The test `(flags & mask) == vk::QueueFlags::empty()` of the source. -/
def disjointFlags (flags mask : QueueFlags) : Bool :=
  flags.inter mask == empty

/-- `GRAPHICS | COMPUTE | TRANSFER`, the `direct_flags` constant of
`find_direct_queue_family_index`. -/
def direct_flags : QueueFlags := (GRAPHICS.union COMPUTE).union TRANSFER

end QueueFlags

/-- The part of `vk::QueueFamilyProperties` the backend reads. -/
structure QueueFamilyProperties where
  queue_flags : QueueFlags
  queue_count : Nat
deriving DecidableEq

/-- A failing driver call, carrying the driver's status code
(`vk::Result` as an integer). -/
inductive DriverError where
  | DriverCallFailed (code : Int)
deriving DecidableEq

/-! ## The selection loop shared by the queue-family searches and the
physical-device search.

Both `find_direct_queue_family_index` / `find_queue_family_index`
(device.rs lines 228-274) and the loop of `find_optimal_physical_device`
(instance.rs lines 266-292) walk a list keeping a running best score
(`queue_count` resp. summed heap size, initialised to `0`) and the tag of
the best element so far (family index resp. device handle), replacing the
best exactly when an element passes the eligibility test and its score
strictly exceeds the running best. -/

/-- One generic pass of that loop.  `keep i x` is the eligibility test for
element `x` at position `i`, `score x` the value compared against the
running best, `tag i x` what is remembered about the winner. -/
def selectBest {α β : Type} (keep : Nat → α → Bool) (score : α → Nat) (tag : Nat → α → β) :
    List α → Nat → Nat × β → Nat × β
  | [], _, acc => acc
  | x :: rest, i, acc =>
    selectBest keep score tag rest (i + 1)
      (if keep i x = true ∧ acc.1 < score x then (score x, tag i x) else acc)

/-! ## Queue-family classification (device.rs lines 228-289) -/

/-- `find_direct_queue_family_index`.  The `get_physical_device_surface_support`
driver call is the oracle `support`; the source consumes its result with
`.unwrap_or(false)`, which is `.toOption.getD false` here.  The loop tracks
`(queue_count, family_index)` starting from `(0, 0)` and finally returns
`Some(family_index)` iff the tracked `queue_count` is nonzero. -/
def find_direct_queue_family_index (support : Nat → Except DriverError Bool)
    (properties : List QueueFamilyProperties) : Option Nat :=
  let r := selectBest
    (fun i p =>
      QueueFlags.containsFlags p.queue_flags QueueFlags.direct_flags
        && ((support i).toOption.getD false))
    (fun p => p.queue_count) (fun i _ => i) properties 0 (0, 0)
  if 0 < r.1 then some r.2 else none

/-- `find_queue_family_index properties desired_flags undesired_flags`. -/
def find_queue_family_index (properties : List QueueFamilyProperties)
    (desired_flags undesired_flags : QueueFlags) : Option Nat :=
  let r := selectBest
    (fun _ p =>
      QueueFlags.containsFlags p.queue_flags desired_flags
        && QueueFlags.disjointFlags p.queue_flags undesired_flags)
    (fun p => p.queue_count) (fun i _ => i) properties 0 (0, 0)
  if 0 < r.1 then some r.2 else none

/-- `find_queue_family_indices`: direct index (propagated with `?`), then the
compute and transfer indices through their `or_else` / `unwrap_or(direct)`
tier chains. -/
def find_queue_family_indices (support : Nat → Except DriverError Bool)
    (properties : List QueueFamilyProperties) : Option (Nat × Nat × Nat) := do
  let direct_index ← find_direct_queue_family_index support properties
  let compute_index :=
    (((find_queue_family_index properties QueueFlags.COMPUTE
          (QueueFlags.GRAPHICS.union QueueFlags.TRANSFER)).orElse
        (fun _ => find_queue_family_index properties QueueFlags.COMPUTE QueueFlags.GRAPHICS)).orElse
      (fun _ => find_queue_family_index properties QueueFlags.COMPUTE QueueFlags.TRANSFER)).getD
      direct_index
  let transfer_index :=
    (((find_queue_family_index properties QueueFlags.TRANSFER
          (QueueFlags.GRAPHICS.union QueueFlags.COMPUTE)).orElse
        (fun _ => find_queue_family_index properties QueueFlags.TRANSFER QueueFlags.GRAPHICS)).orElse
      (fun _ => find_queue_family_index properties QueueFlags.TRANSFER QueueFlags.COMPUTE)).getD
      direct_index
  some (direct_index, compute_index, transfer_index)

/-! ## Queue-creation requests (device.rs lines 316-341) -/

/-- The part of `vk::DeviceQueueCreateInfo` that `Device::new` fills in. -/
structure DeviceQueueCreateInfo where
  queue_family_index : Nat
  queue_priorities : List ℚ
deriving DecidableEq

/-- The `device_queue_create_infos` vector built by `Device::new`: always a
request for the direct family, plus one for the compute family if it differs
from the direct one, plus one for the transfer family if it differs from the
direct one.  Every request uses `queue_priorities = [1.0]`. -/
def device_queue_create_infos
    (direct_queue_family_index compute_queue_family_index transfer_queue_family_index : Nat) :
    List DeviceQueueCreateInfo :=
  let queue_priorities : List ℚ := [1]
  let infos := [DeviceQueueCreateInfo.mk direct_queue_family_index queue_priorities]
  let infos :=
    if compute_queue_family_index ≠ direct_queue_family_index then
      infos ++ [DeviceQueueCreateInfo.mk compute_queue_family_index queue_priorities]
    else infos
  if transfer_queue_family_index ≠ direct_queue_family_index then
    infos ++ [DeviceQueueCreateInfo.mk transfer_queue_family_index queue_priorities]
  else infos

/-! ## Physical-device selection (instance.rs lines 266-299) -/

/-- The `vk::PhysicalDeviceType` values; the source only compares against
`DISCRETE_GPU`. -/
inductive PhysicalDeviceType where
  | DISCRETE_GPU
  | INTEGRATED_GPU
  | VIRTUAL_GPU
  | CPU
  | OTHER
deriving DecidableEq

/-- A memory heap: its `u64` size and whether its flags contain
`DEVICE_LOCAL`. -/
structure MemoryHeap where
  size : Nat
  device_local : Bool
deriving DecidableEq

/-- A physical device as the selection loop sees it: its raw handle (a
nonzero integer for every valid handle; `0` is `VK_NULL_HANDLE`), the device
type from its properties, and the first `memory_heap_count` entries of its
memory-heap table. -/
structure PhysicalDevice where
  handle : Nat
  device_type : PhysicalDeviceType
  memory_heaps : List MemoryHeap
deriving DecidableEq

/-- The inner heap loop of `find_optimal_physical_device`: sum of the sizes
of the heaps flagged device-local, accumulated with wrapping `u64` (`+=`)
addition. -/
def device_local_heap_size (d : PhysicalDevice) : Nat :=
  d.memory_heaps.foldl (fun acc h => if h.device_local then (acc + h.size) % 2 ^ 64 else acc) 0

/-- `Instance::find_optimal_physical_device`.  The loop keeps
`(heap_size, physical_device)` starting from `(0, null)`; a device is
eligible iff it is discrete (`continue` otherwise) and replaces the best
iff its device-local heap sum strictly exceeds the running best.  If the
tracked handle is still null afterwards the source indexes
`physical_devices[0]`, which panics on an empty list; the panic is modelled
by `none` (`head?`). -/
def find_optimal_physical_device (physical_devices : List PhysicalDevice) : Option Nat :=
  let r := selectBest
    (fun _ d => decide (d.device_type = PhysicalDeviceType.DISCRETE_GPU))
    device_local_heap_size (fun _ d => d.handle) physical_devices 0 (0, 0)
  if r.2 = 0 then physical_devices.head?.map PhysicalDevice.handle else some r.2

/-! ## API-version negotiation (renderer/mod.rs lines 13-33 and 42-54)

The `vk::api_version_*` helpers are the Vulkan version-packing scheme used
by the `ash` bindings: `variant:3 | major:7 | minor:10 | patch:12` bits. -/

def api_version_major (version : Nat) : Nat := (version >>> 22) &&& 0x7F

def api_version_minor (version : Nat) : Nat := (version >>> 12) &&& 0x3FF

def api_version_patch (version : Nat) : Nat := version &&& 0xFFF

def make_api_version (variant major minor patch : Nat) : Nat :=
  (variant <<< 29) ||| (major <<< 22) ||| (minor <<< 12) ||| patch

/-- The VersionUnsupported failure of the initialization callbacks
(`bail!("Only Vulkan {}.{}.{} is supported, but minimum supported version is 1.1")`). -/
inductive RendererError where
  | VersionUnsupported
deriving DecidableEq

/-- The version gate of the instance negotiation callback in `initialize`:
`major = api_version_major(version)`, `minor = api_version_minor(version)`,
bail iff `major < 1 || minor < 1`, otherwise report the version. -/
def instance_negotiation_version (version : Nat) : Except RendererError Nat :=
  let major := api_version_major version
  let minor := api_version_minor version
  if major < 1 ∨ minor < 1 then Except.error RendererError.VersionUnsupported
  else Except.ok version

/-- The version gate of the device negotiation callback in `initialize`.
The source assigns `let major = vk::api_version_minor(version)` — the minor
field, reproduced verbatim here — and bails iff `major < 1 || minor < 1`. -/
def device_negotiation_version (api_version : Nat) : Except RendererError Unit :=
  let major := api_version_minor api_version
  let minor := api_version_minor api_version
  if major < 1 ∨ minor < 1 then Except.error RendererError.VersionUnsupported
  else Except.ok ()

/-- Modelled from the spec (for comparison only): "reported API version
below 1.1" in the packed-version encoding, ignoring the variant bits like
the source's checks do. -/
def spec_version_below_1_1 (version : Nat) : Prop :=
  api_version_major version < 1 ∨ (api_version_major version = 1 ∧ api_version_minor version < 1)

instance (version : Nat) : Decidable (spec_version_below_1_1 version) := by
  unfold spec_version_below_1_1; infer_instance

/-! ## Capability sets

`Layers` and `Extensions` on the instance (instance.rs lines 43-190) and
`Extensions` on the device (device.rs lines 100-176).  A `supported` entry
is identified by its name string (`layer_name` / `extension_name`); strcmp
equality of the NUL-terminated names is string equality. -/

namespace InstanceRs

/-- `instance.rs` `Layers`. -/
structure Layers where
  supported : List String
  enabled : List String
  khronos_validation : Bool
deriving DecidableEq

namespace Layers

def is_supported (s : Layers) (name : String) : Bool :=
  s.supported.any fun e => e == name

def is_enabled (s : Layers) (name : String) : Bool :=
  s.enabled.any fun e => e == name

/-- `Layers::try_push`: returns the Rust return value together with the
state after the call (`&mut self` made explicit). -/
def try_push (s : Layers) (name : String) : Bool × Layers :=
  if !s.is_supported name || s.is_enabled name then (false, s)
  else
    let s := { s with enabled := s.enabled ++ [name] }
    let s :=
      if name == "VK_LAYER_KHRONOS_validation" then { s with khronos_validation := true } else s
    (true, s)

/-- `Layers::push`: `assert!(self.try_push(name))`; the panic of a failed
assertion is modelled by `none`. -/
def push (s : Layers) (name : String) : Option Layers :=
  let r := s.try_push name
  if r.1 then some r.2 else none

end Layers

/-- `instance.rs` `Extensions`. -/
structure Extensions where
  supported : List String
  enabled : List String
  ext_debug_utils : Bool
  khr_get_surface_capabilities2 : Bool
  khr_surface : Bool
deriving DecidableEq

namespace Extensions

def is_supported (s : Extensions) (name : String) : Bool :=
  s.supported.any fun e => e == name

def is_enabled (s : Extensions) (name : String) : Bool :=
  s.enabled.any fun e => e == name

/-- `Extensions::try_push` of instance.rs, flag chain included
(`VK_EXT_debug_utils`, `VK_KHR_get_surface_capabilities2`, `VK_KHR_surface`). -/
def try_push (s : Extensions) (name : String) : Bool × Extensions :=
  if !s.is_supported name || s.is_enabled name then (false, s)
  else
    let s := { s with enabled := s.enabled ++ [name] }
    let s :=
      if name == "VK_EXT_debug_utils" then { s with ext_debug_utils := true }
      else if name == "VK_KHR_get_surface_capabilities2" then
        { s with khr_get_surface_capabilities2 := true }
      else if name == "VK_KHR_surface" then { s with khr_surface := true }
      else s
    (true, s)

/-- `Extensions::push` of instance.rs: `assert!(self.try_push(name))`. -/
def push (s : Extensions) (name : String) : Option Extensions :=
  let r := s.try_push name
  if r.1 then some r.2 else none

end Extensions

end InstanceRs

namespace DeviceRs

/-- `device.rs` `Extensions`. -/
structure Extensions where
  supported : List String
  enabled : List String
  khr_portability_subset : Bool
  khr_swapchain : Bool
  nv_mesh_shader : Bool
deriving DecidableEq

namespace Extensions

def is_supported (s : Extensions) (name : String) : Bool :=
  s.supported.any fun e => e == name

def is_enabled (s : Extensions) (name : String) : Bool :=
  s.enabled.any fun e => e == name

/-- `Extensions::try_push` of device.rs, flag chain included
(`VK_KHR_portability_subset`, `VK_KHR_swapchain`, `VK_NV_mesh_shader`). -/
def try_push (s : Extensions) (name : String) : Bool × Extensions :=
  if !s.is_supported name || s.is_enabled name then (false, s)
  else
    let s := { s with enabled := s.enabled ++ [name] }
    let s :=
      if name == "VK_KHR_portability_subset" then { s with khr_portability_subset := true }
      else if name == "VK_KHR_swapchain" then { s with khr_swapchain := true }
      else if name == "VK_NV_mesh_shader" then { s with nv_mesh_shader := true }
      else s
    (true, s)

/-- `Extensions::push` of device.rs: `assert!(self.try_push(name))`. -/
def push (s : Extensions) (name : String) : Option Extensions :=
  let r := s.try_push name
  if r.1 then some r.2 else none

end Extensions

end DeviceRs

/-- A negotiation-time call on a capability set: the non-fatal `try_push`
or the asserting `push`. -/
inductive CapabilityOp where
  | try_push (name : String)
  | push (name : String)
deriving DecidableEq

/-- Run a sequence of `try_push`/`push` calls on a `Layers` value;
`none` once any `push` panics. -/
def InstanceRs.Layers.runOps (s : InstanceRs.Layers) : List CapabilityOp → Option InstanceRs.Layers
  | [] => some s
  | CapabilityOp.try_push n :: ops => (s.try_push n).2.runOps ops
  | CapabilityOp.push n :: ops =>
    match s.push n with
    | some s' => s'.runOps ops
    | none => none

/-- Run a sequence of `try_push`/`push` calls on an instance `Extensions`
value. -/
def InstanceRs.Extensions.runOps (s : InstanceRs.Extensions) :
    List CapabilityOp → Option InstanceRs.Extensions
  | [] => some s
  | CapabilityOp.try_push n :: ops => (s.try_push n).2.runOps ops
  | CapabilityOp.push n :: ops =>
    match s.push n with
    | some s' => s'.runOps ops
    | none => none

/-- Run a sequence of `try_push`/`push` calls on a device `Extensions`
value. -/
def DeviceRs.Extensions.runOps (s : DeviceRs.Extensions) :
    List CapabilityOp → Option DeviceRs.Extensions
  | [] => some s
  | CapabilityOp.try_push n :: ops => (s.try_push n).2.runOps ops
  | CapabilityOp.push n :: ops =>
    match s.push n with
    | some s' => s'.runOps ops
    | none => none

/-! ## Swapchain teardown (swapchain.rs lines 267-281) -/

/-- The native handles a constructed `Swapchain` holds (each modelled as an
integer handle). -/
structure SwapchainState where
  render_pass : Nat
  images : List Nat
  image_views : List Nat
  framebuffers : List Nat
  swapchain : Nat
deriving DecidableEq

/-- A native destroy call made during teardown. -/
inductive DestroyEvent where
  | destroy_framebuffer (h : Nat)
  | destroy_image_view (h : Nat)
  | destroy_swapchain (h : Nat)
  | destroy_render_pass (h : Nat)
  | destroy_image (h : Nat)
deriving DecidableEq

/-- The trace of destroy calls issued by `impl Drop for Swapchain`, in
program order: `for_each destroy_framebuffer`, `for_each destroy_image_view`,
`destroy_swapchain`, `destroy_render_pass`.  The `_images` field is never
destroyed by the source. -/
def swapchain_drop (s : SwapchainState) : List DestroyEvent :=
  (s.framebuffers.foldl (fun t fb => t ++ [DestroyEvent.destroy_framebuffer fb]) [])
    ++ (s.image_views.foldl (fun t v => t ++ [DestroyEvent.destroy_image_view v]) [])
    ++ [DestroyEvent.destroy_swapchain s.swapchain]
    ++ [DestroyEvent.destroy_render_pass s.render_pass]

/-! ## Specification-level predicates used to state the claims -/

/-- `a` is the first element of `l` satisfying `p`: it sits at some position
`i`, satisfies `p`, and everything before position `i` fails `p`. -/
def FirstSuch {α : Type} (p : α → Bool) (l : List α) (a : α) : Prop :=
  ∃ i, l.get? i = some a ∧ p a = true ∧ ∀ j, j < i → ∀ b, l.get? j = some b → p b = false

/-- The queue-family condition of the claim's direct-family policy at family
index `i`: graphics, compute and transfer support, a nonzero queue count and
presentation support. -/
def DirectQualifies (present : Nat → Bool) (properties : List QueueFamilyProperties)
    (i : Nat) : Prop :=
  ∃ p, properties.get? i = some p
    ∧ p.queue_flags.graphics = true ∧ p.queue_flags.compute = true
    ∧ p.queue_flags.transfer = true ∧ present i = true ∧ 0 < p.queue_count

/-- Family `d` qualifies as direct family and no family supporting graphics,
compute, transfer and presentation has a larger queue count. -/
def DirectChosen (present : Nat → Bool) (properties : List QueueFamilyProperties)
    (d : Nat) : Prop :=
  ∃ p, properties.get? d = some p
    ∧ p.queue_flags.graphics = true ∧ p.queue_flags.compute = true
    ∧ p.queue_flags.transfer = true ∧ present d = true ∧ 0 < p.queue_count
    ∧ ∀ j q, properties.get? j = some q →
        q.queue_flags.graphics = true → q.queue_flags.compute = true →
        q.queue_flags.transfer = true → present j = true →
        q.queue_count ≤ p.queue_count

/-- The flag test of one preference tier: all `need` bits present, no
`forbid` bit present. -/
def TierCond (need forbid : QueueFlags) (p : QueueFamilyProperties) : Prop :=
  QueueFlags.containsFlags p.queue_flags need = true
    ∧ QueueFlags.disjointFlags p.queue_flags forbid = true

/-- Some family with a nonzero queue count lies in the tier. -/
def TierQualifies (properties : List QueueFamilyProperties) (need forbid : QueueFlags)
    (i : Nat) : Prop :=
  ∃ p, properties.get? i = some p ∧ TierCond need forbid p ∧ 0 < p.queue_count

/-- Family `i` lies in the tier with a nonzero queue count and no family of
the tier has a larger queue count. -/
def TierChosen (properties : List QueueFamilyProperties) (need forbid : QueueFlags)
    (i : Nat) : Prop :=
  ∃ p, properties.get? i = some p ∧ TierCond need forbid p ∧ 0 < p.queue_count
    ∧ ∀ j q, properties.get? j = some q → TierCond need forbid q →
        q.queue_count ≤ p.queue_count

/-- No family of the tier has a nonzero queue count. -/
def NoTier (properties : List QueueFamilyProperties) (need forbid : QueueFlags) : Prop :=
  ∀ i, ¬ TierQualifies properties need forbid i

/-- The claim's tiered compute-family policy: compute-not-graphics-not-transfer,
else compute-not-graphics, else compute-not-transfer, else the direct family,
with the largest queue count within the first tier that is inhabited. -/
def ComputeChoice (properties : List QueueFamilyProperties) (direct c : Nat) : Prop :=
  TierChosen properties QueueFlags.COMPUTE (QueueFlags.GRAPHICS.union QueueFlags.TRANSFER) c
  ∨ (NoTier properties QueueFlags.COMPUTE (QueueFlags.GRAPHICS.union QueueFlags.TRANSFER)
      ∧ TierChosen properties QueueFlags.COMPUTE QueueFlags.GRAPHICS c)
  ∨ (NoTier properties QueueFlags.COMPUTE (QueueFlags.GRAPHICS.union QueueFlags.TRANSFER)
      ∧ NoTier properties QueueFlags.COMPUTE QueueFlags.GRAPHICS
      ∧ TierChosen properties QueueFlags.COMPUTE QueueFlags.TRANSFER c)
  ∨ (NoTier properties QueueFlags.COMPUTE (QueueFlags.GRAPHICS.union QueueFlags.TRANSFER)
      ∧ NoTier properties QueueFlags.COMPUTE QueueFlags.GRAPHICS
      ∧ NoTier properties QueueFlags.COMPUTE QueueFlags.TRANSFER
      ∧ c = direct)

/-- The claim's tiered transfer-family policy, symmetric to the compute
policy: transfer-only, then transfer-not-graphics, then transfer-not-compute,
then the direct family. -/
def TransferChoice (properties : List QueueFamilyProperties) (direct t : Nat) : Prop :=
  TierChosen properties QueueFlags.TRANSFER (QueueFlags.GRAPHICS.union QueueFlags.COMPUTE) t
  ∨ (NoTier properties QueueFlags.TRANSFER (QueueFlags.GRAPHICS.union QueueFlags.COMPUTE)
      ∧ TierChosen properties QueueFlags.TRANSFER QueueFlags.GRAPHICS t)
  ∨ (NoTier properties QueueFlags.TRANSFER (QueueFlags.GRAPHICS.union QueueFlags.COMPUTE)
      ∧ NoTier properties QueueFlags.TRANSFER QueueFlags.GRAPHICS
      ∧ TierChosen properties QueueFlags.TRANSFER QueueFlags.COMPUTE t)
  ∨ (NoTier properties QueueFlags.TRANSFER (QueueFlags.GRAPHICS.union QueueFlags.COMPUTE)
      ∧ NoTier properties QueueFlags.TRANSFER QueueFlags.GRAPHICS
      ∧ NoTier properties QueueFlags.TRANSFER QueueFlags.COMPUTE
      ∧ t = direct)

/-- The phase of a destroy call in the teardown order stated by the
specification: framebuffers before image views before the presentable chain
before the render-target description; images are never destroyed. -/
def DestroyEvent.phase : DestroyEvent → Nat
  | DestroyEvent.destroy_framebuffer _ => 0
  | DestroyEvent.destroy_image_view _ => 1
  | DestroyEvent.destroy_swapchain _ => 2
  | DestroyEvent.destroy_render_pass _ => 3
  | DestroyEvent.destroy_image _ => 4

/-- First position a teardown event of phase `p` may occupy in the destroy
trace of a swapchain with `nf` framebuffers and `nv` image views. -/
def phaseLow (nf nv p : Nat) : Nat :=
  match p with
  | 0 => 0
  | 1 => nf
  | 2 => nf + nv
  | _ => nf + nv + 1

/-- One past the last position a teardown event of phase `p` may occupy. -/
def phaseHigh (nf nv p : Nat) : Nat :=
  match p with
  | 0 => nf
  | 1 => nf + nv
  | 2 => nf + nv + 1
  | _ => nf + nv + 2

/-- The capability-set invariant of the specification for `Layers`: every
enabled name is present in supported and no name appears twice in enabled. -/
def InstanceRs.Layers.Inv (s : InstanceRs.Layers) : Prop :=
  (∀ n ∈ s.enabled, n ∈ s.supported) ∧ s.enabled.Nodup

/-- The capability-set invariant for the instance `Extensions`. -/
def InstanceRs.Extensions.Inv (s : InstanceRs.Extensions) : Prop :=
  (∀ n ∈ s.enabled, n ∈ s.supported) ∧ s.enabled.Nodup

/-- The capability-set invariant for the device `Extensions`. -/
def DeviceRs.Extensions.Inv (s : DeviceRs.Extensions) : Prop :=
  (∀ n ∈ s.enabled, n ∈ s.supported) ∧ s.enabled.Nodup

/-! ## Concrete inputs used by the scenario, witness and counterexample
theorems -/

/-- The two-family device of the end-to-end scenario: family 0 supports
graphics, compute and transfer with 4 queues; family 1 is compute-only with
2 queues. -/
def mock_queue_families : List QueueFamilyProperties :=
  [⟨⟨true, true, true⟩, 4⟩, ⟨⟨false, true, false⟩, 2⟩]

/-- The scenario's presentation oracle: family 0 supports presentation. -/
def mock_present_support (i : Nat) : Except DriverError Bool :=
  Except.ok (decide (i = 0))

/-- A supported-format list offering BGRA8-UNORM before RGBA8-sRGB and no
extended-range format. -/
def c1_formats : List SurfaceFormatKHR :=
  [⟨Format.B8G8R8A8_UNORM, ColorSpaceKHR.SRGB_NONLINEAR⟩,
   ⟨Format.R8G8B8A8_SRGB, ColorSpaceKHR.SRGB_NONLINEAR⟩]

/-- A single queue family supporting graphics, compute and transfer. -/
def c6_properties : List QueueFamilyProperties := [⟨⟨true, true, true⟩, 4⟩]

/-- Two queue families: family 0 graphics+compute+transfer with 4 queues,
family 1 compute+transfer with 2 queues. -/
def c4_properties : List QueueFamilyProperties :=
  [⟨⟨true, true, true⟩, 4⟩, ⟨⟨false, true, true⟩, 2⟩]

/-- An integrated device enumerated first, then a discrete device whose
device-local heap sum is zero. -/
def c5_devices : List PhysicalDevice :=
  [⟨1, PhysicalDeviceType.INTEGRATED_GPU, []⟩, ⟨2, PhysicalDeviceType.DISCRETE_GPU, []⟩]

/-- One discrete device with a 16-byte device-local heap. -/
def c5_discrete_devices : List PhysicalDevice :=
  [⟨3, PhysicalDeviceType.DISCRETE_GPU, [⟨16, true⟩]⟩]

/-- A capability set supporting exactly the name `"a"`, nothing enabled yet. -/
def c8_layers : InstanceRs.Layers := ⟨["a"], [], false⟩

/-- A swapchain state with one framebuffer, one image view, one image. -/
def c9_swapchain : SwapchainState := ⟨7, [1], [2], [3], 9⟩

/-! ## Helper lemmas -/

theorem find?_eq_some_iff_FirstSuch {α : Type} (p : α → Bool) (l : List α) (a : α) :
    l.find? p = some a ↔ FirstSuch p l a := by
  induction l with
  | nil =>
    simp only [List.find?_nil, FirstSuch]
    constructor
    · intro h; cases h
    · rintro ⟨i, hi, -⟩; simp at hi
  | cons x t ih =>
    cases hp : p x with
    | true =>
      rw [List.find?_cons_of_pos _ hp]
      constructor
      · intro h
        injection h with h
        exact ⟨0, by simp [h], h ▸ hp, fun j hj => absurd hj (Nat.not_lt_zero j)⟩
      · rintro ⟨i, hi, hpa, hfirst⟩
        cases i with
        | zero => simp only [List.get?_cons_zero] at hi; injection hi with hi; rw [hi]
        | succ j =>
          have := hfirst 0 (Nat.succ_pos j) x (by simp)
          rw [hp] at this; cases this
    | false =>
      rw [List.find?_cons_of_neg _ (by simp [hp]), ih]
      constructor
      · rintro ⟨i, hi, hpa, hfirst⟩
        refine ⟨i + 1, by simpa using hi, hpa, fun j hj b hb => ?_⟩
        cases j with
        | zero => simp only [List.get?_cons_zero] at hb; injection hb with hb; exact hb ▸ hp
        | succ k =>
          exact hfirst k (Nat.lt_of_succ_lt_succ hj) b (by simpa using hb)
      · rintro ⟨i, hi, hpa, hfirst⟩
        cases i with
        | zero =>
          simp only [List.get?_cons_zero] at hi; injection hi with hi
          rw [hi] at hp; rw [hpa] at hp; cases hp
        | succ j =>
          refine ⟨j, by simpa using hi, hpa, fun k hk b hb => ?_⟩
          exact hfirst (k + 1) (Nat.succ_lt_succ hk) b (by simpa using hb)

theorem find?_eq_none_iff {α : Type} (p : α → Bool) (l : List α) :
    l.find? p = none ↔ ∀ a ∈ l, p a = false := by
  rw [List.find?_eq_none]
  constructor
  · intro h a ha; cases hpa : p a with
    | true => exact absurd hpa (h a ha)
    | false => rfl
  · intro h a ha hpa; rw [h a ha] at hpa; cases hpa

theorem selectBest_spec {α β : Type} (keep : Nat → α → Bool) (score : α → Nat) (tag : Nat → α → β) :
    ∀ (l : List α) (i0 s0 : Nat) (t0 : β),
      s0 ≤ (selectBest keep score tag l i0 (s0, t0)).1
      ∧ (∀ k x, l.get? k = some x → keep (i0 + k) x = true →
          score x ≤ (selectBest keep score tag l i0 (s0, t0)).1)
      ∧ (s0 < (selectBest keep score tag l i0 (s0, t0)).1 →
          ∃ k x, l.get? k = some x ∧ keep (i0 + k) x = true
            ∧ score x = (selectBest keep score tag l i0 (s0, t0)).1
            ∧ (selectBest keep score tag l i0 (s0, t0)).2 = tag (i0 + k) x)
      ∧ ((selectBest keep score tag l i0 (s0, t0)).1 = s0 →
          (selectBest keep score tag l i0 (s0, t0)).2 = t0) := by
  intro l
  induction l with
  | nil =>
    intro i0 s0 t0
    refine ⟨Nat.le_refl s0, fun k x hk => ?_, fun h => absurd h (Nat.lt_irrefl s0), fun _ => rfl⟩
    simp at hk
  | cons x rest ih =>
    intro i0 s0 t0
    by_cases hc : keep i0 x = true ∧ s0 < score x
    · have hstep : selectBest keep score tag (x :: rest) i0 (s0, t0)
          = selectBest keep score tag rest (i0 + 1) (score x, tag i0 x) := by
        simp only [selectBest]; rw [if_pos hc]
      rw [hstep]
      obtain ⟨ih1, ih2, ih3, ih4⟩ := ih (i0 + 1) (score x) (tag i0 x)
      refine ⟨Nat.le_of_lt (Nat.lt_of_lt_of_le hc.2 ih1), ?_, ?_, ?_⟩
      · intro k y hk hkeep
        cases k with
        | zero => simp only [List.get?_cons_zero] at hk; injection hk with hk; rw [← hk]; exact ih1
        | succ j =>
          have hadd : i0 + (j + 1) = (i0 + 1) + j := by omega
          rw [hadd] at hkeep
          exact ih2 j y (by simpa using hk) hkeep
      · intro _
        rcases Nat.lt_or_ge (score x)
            (selectBest keep score tag rest (i0 + 1) (score x, tag i0 x)).1 with hlt | hge
        · obtain ⟨k, y, hk, hkeep, hscore, htag⟩ := ih3 hlt
          have hadd : (i0 + 1) + k = i0 + (k + 1) := by omega
          exact ⟨k + 1, y, by simpa using hk, by rw [← hadd]; exact hkeep, hscore,
            by rw [htag, hadd]⟩
        · have heq : (selectBest keep score tag rest (i0 + 1) (score x, tag i0 x)).1 = score x :=
            Nat.le_antisymm hge ih1
          exact ⟨0, x, by simp, by simpa using hc.1, heq.symm, by simpa using ih4 heq⟩
      · intro h
        exact absurd (Nat.lt_of_lt_of_le hc.2 ih1) (by rw [h]; exact Nat.lt_irrefl s0)
    · have hstep : selectBest keep score tag (x :: rest) i0 (s0, t0)
          = selectBest keep score tag rest (i0 + 1) (s0, t0) := by
        simp only [selectBest]; rw [if_neg hc]
      rw [hstep]
      obtain ⟨ih1, ih2, ih3, ih4⟩ := ih (i0 + 1) s0 t0
      refine ⟨ih1, ?_, ?_, ih4⟩
      · intro k y hk hkeep
        cases k with
        | zero =>
          simp only [List.get?_cons_zero] at hk; injection hk with hk
          rw [← hk] at hkeep ⊢
          simp only [Nat.add_zero] at hkeep
          have hle : score x ≤ s0 := by
            by_contra hgt
            exact hc ⟨hkeep, Nat.lt_of_not_le hgt⟩
          exact Nat.le_trans hle ih1
        | succ j =>
          have hadd : i0 + (j + 1) = (i0 + 1) + j := by omega
          rw [hadd] at hkeep
          exact ih2 j y (by simpa using hk) hkeep
      · intro h
        obtain ⟨k, y, hk, hkeep, hscore, htag⟩ := ih3 h
        have hadd : (i0 + 1) + k = i0 + (k + 1) := by omega
        exact ⟨k + 1, y, by simpa using hk, by rw [← hadd]; exact hkeep, hscore,
          by rw [htag, hadd]⟩

theorem containsFlags_direct_flags (f : QueueFlags) :
    QueueFlags.containsFlags f QueueFlags.direct_flags
      = (f.graphics && f.compute && f.transfer) := by
  cases f with
  | mk g c t => cases g <;> cases c <;> cases t <;> decide

/-- The eligibility test of `find_direct_queue_family_index` under a
never-failing surface-support oracle. -/
theorem direct_pred_ok (present : Nat → Bool) (i : Nat) (p : QueueFamilyProperties) :
    (QueueFlags.containsFlags p.queue_flags QueueFlags.direct_flags
        && ((Except.ok (present i) : Except DriverError Bool).toOption.getD false))
      = (p.queue_flags.graphics && p.queue_flags.compute && p.queue_flags.transfer && present i) := by
  rw [containsFlags_direct_flags]; rfl

theorem find_queue_family_index_none_iff (properties : List QueueFamilyProperties)
    (need forbid : QueueFlags) :
    find_queue_family_index properties need forbid = none ↔ NoTier properties need forbid := by
  unfold find_queue_family_index
  obtain ⟨-, h2, h3, -⟩ := selectBest_spec
    (fun _ p => QueueFlags.containsFlags p.queue_flags need
      && QueueFlags.disjointFlags p.queue_flags forbid)
    (fun p => p.queue_count) (fun i _ => i) properties 0 0 0
  constructor
  · intro h i ⟨p, hp, ⟨hc1, hc2⟩, hcount⟩
    have hr : ¬ 0 < (selectBest
        (fun _ p => QueueFlags.containsFlags p.queue_flags need
          && QueueFlags.disjointFlags p.queue_flags forbid)
        (fun p => p.queue_count) (fun i _ => i) properties 0 (0, 0)).1 := by
      intro hpos; rw [if_pos hpos] at h; cases h
    have := h2 i p hp (by rw [hc1, hc2]; rfl)
    exact hr (Nat.lt_of_lt_of_le hcount this)
  · intro hno
    rw [if_neg]
    intro hpos
    obtain ⟨k, p, hk, hkeep, hscore, -⟩ := h3 hpos
    rw [Bool.and_eq_true] at hkeep
    exact hno k ⟨p, hk, ⟨hkeep.1, hkeep.2⟩, by rw [hscore]; exact hpos⟩

theorem find_queue_family_index_some (properties : List QueueFamilyProperties)
    (need forbid : QueueFlags) (i : Nat) :
    find_queue_family_index properties need forbid = some i →
    TierChosen properties need forbid i := by
  unfold find_queue_family_index
  intro h
  obtain ⟨-, h2, h3, -⟩ := selectBest_spec
    (fun _ p => QueueFlags.containsFlags p.queue_flags need
      && QueueFlags.disjointFlags p.queue_flags forbid)
    (fun p => p.queue_count) (fun i _ => i) properties 0 0 0
  by_cases hpos : 0 < (selectBest
      (fun _ p => QueueFlags.containsFlags p.queue_flags need
        && QueueFlags.disjointFlags p.queue_flags forbid)
      (fun p => p.queue_count) (fun i _ => i) properties 0 (0, 0)).1
  · rw [if_pos hpos] at h
    injection h with h
    obtain ⟨k, p, hk, hkeep, hscore, htag⟩ := h3 hpos
    rw [Nat.zero_add] at htag
    rw [Bool.and_eq_true] at hkeep
    refine ⟨p, by rw [← h, htag]; exact hk, ⟨hkeep.1, hkeep.2⟩,
      by rw [hscore]; exact hpos, fun j q hj ⟨hq1, hq2⟩ => ?_⟩
    rw [hscore]
    exact h2 j q hj (by rw [hq1, hq2]; rfl)
  · rw [if_neg hpos] at h; cases h

theorem find_direct_queue_family_index_none_iff (present : Nat → Bool)
    (properties : List QueueFamilyProperties) :
    find_direct_queue_family_index (fun i => Except.ok (present i)) properties = none
      ↔ ∀ i, ¬ DirectQualifies present properties i := by
  unfold find_direct_queue_family_index
  obtain ⟨-, h2, h3, -⟩ := selectBest_spec
    (fun i p => QueueFlags.containsFlags p.queue_flags QueueFlags.direct_flags
      && ((Except.ok (present i) : Except DriverError Bool).toOption.getD false))
    (fun p => p.queue_count) (fun i _ => i) properties 0 0 0
  constructor
  · intro h i ⟨p, hp, hg, hc, ht, hpres, hcount⟩
    have hr : ¬ 0 < (selectBest
        (fun i p => QueueFlags.containsFlags p.queue_flags QueueFlags.direct_flags
          && ((Except.ok (present i) : Except DriverError Bool).toOption.getD false))
        (fun p => p.queue_count) (fun i _ => i) properties 0 (0, 0)).1 := by
      intro hpos; rw [if_pos hpos] at h; cases h
    have hkeep : (QueueFlags.containsFlags p.queue_flags QueueFlags.direct_flags
        && ((Except.ok (present (0 + i)) : Except DriverError Bool).toOption.getD false)) = true := by
      rw [Nat.zero_add, direct_pred_ok, hg, hc, ht, hpres]; rfl
    have := h2 i p hp hkeep
    exact hr (Nat.lt_of_lt_of_le hcount this)
  · intro hno
    rw [if_neg]
    intro hpos
    obtain ⟨k, p, hk, hkeep, hscore, -⟩ := h3 hpos
    rw [Nat.zero_add, direct_pred_ok] at hkeep
    simp only [Bool.and_eq_true] at hkeep
    exact hno k ⟨p, hk, hkeep.1.1.1, hkeep.1.1.2, hkeep.1.2, hkeep.2,
      by rw [hscore]; exact hpos⟩

theorem find_direct_queue_family_index_some (present : Nat → Bool)
    (properties : List QueueFamilyProperties) (d : Nat) :
    find_direct_queue_family_index (fun i => Except.ok (present i)) properties = some d →
    DirectChosen present properties d := by
  unfold find_direct_queue_family_index
  intro h
  obtain ⟨-, h2, h3, -⟩ := selectBest_spec
    (fun i p => QueueFlags.containsFlags p.queue_flags QueueFlags.direct_flags
      && ((Except.ok (present i) : Except DriverError Bool).toOption.getD false))
    (fun p => p.queue_count) (fun i _ => i) properties 0 0 0
  by_cases hpos : 0 < (selectBest
      (fun i p => QueueFlags.containsFlags p.queue_flags QueueFlags.direct_flags
        && ((Except.ok (present i) : Except DriverError Bool).toOption.getD false))
      (fun p => p.queue_count) (fun i _ => i) properties 0 (0, 0)).1
  · rw [if_pos hpos] at h
    injection h with h
    obtain ⟨k, p, hk, hkeep, hscore, htag⟩ := h3 hpos
    rw [Nat.zero_add] at htag
    rw [Nat.zero_add, direct_pred_ok] at hkeep
    simp only [Bool.and_eq_true] at hkeep
    refine ⟨p, by rw [← h, htag]; exact hk, hkeep.1.1.1, hkeep.1.1.2, hkeep.1.2,
      by rw [← h, htag]; exact hkeep.2, by rw [hscore]; exact hpos,
      fun j q hj hqg hqc hqt hqpres => ?_⟩
    have hkeepj : (QueueFlags.containsFlags q.queue_flags QueueFlags.direct_flags
        && ((Except.ok (present (0 + j)) : Except DriverError Bool).toOption.getD false)) = true := by
      rw [Nat.zero_add, direct_pred_ok, hqg, hqc, hqt, hqpres]; rfl
    rw [hscore]
    exact h2 j q hj hkeepj
  · rw [if_neg hpos] at h; cases h

theorem tier_chain_spec (properties : List QueueFamilyProperties)
    (need f1 f2 f3 : QueueFlags) (direct c : Nat) :
    ((((find_queue_family_index properties need f1).orElse
        (fun _ => find_queue_family_index properties need f2)).orElse
        (fun _ => find_queue_family_index properties need f3)).getD direct) = c →
    TierChosen properties need f1 c
    ∨ (NoTier properties need f1 ∧ TierChosen properties need f2 c)
    ∨ (NoTier properties need f1 ∧ NoTier properties need f2
        ∧ TierChosen properties need f3 c)
    ∨ (NoTier properties need f1 ∧ NoTier properties need f2
        ∧ NoTier properties need f3 ∧ c = direct) := by
  intro hc
  cases h1 : find_queue_family_index properties need f1 with
  | some i =>
    rw [h1] at hc
    simp only [Option.orElse, Option.getD] at hc
    exact Or.inl (hc ▸ find_queue_family_index_some properties need f1 i h1)
  | none =>
    have hno1 := (find_queue_family_index_none_iff properties need f1).mp h1
    rw [h1] at hc
    simp only [Option.orElse] at hc
    cases h2 : find_queue_family_index properties need f2 with
    | some i =>
      rw [h2] at hc
      simp only [Option.getD] at hc
      exact Or.inr (Or.inl ⟨hno1, hc ▸ find_queue_family_index_some properties need f2 i h2⟩)
    | none =>
      have hno2 := (find_queue_family_index_none_iff properties need f2).mp h2
      rw [h2] at hc
      simp only [Option.orElse] at hc
      cases h3 : find_queue_family_index properties need f3 with
      | some i =>
        rw [h3] at hc
        simp only [Option.getD] at hc
        exact Or.inr (Or.inr (Or.inl
          ⟨hno1, hno2, hc ▸ find_queue_family_index_some properties need f3 i h3⟩))
      | none =>
        have hno3 := (find_queue_family_index_none_iff properties need f3).mp h3
        rw [h3] at hc
        simp only [Option.getD] at hc
        exact Or.inr (Or.inr (Or.inr ⟨hno1, hno2, hno3, hc.symm⟩))

theorem find_queue_family_indices_spec (support : Nat → Except DriverError Bool)
    (properties : List QueueFamilyProperties) (d c t : Nat) :
    find_queue_family_indices support properties = some (d, c, t) →
    find_direct_queue_family_index support properties = some d
      ∧ ComputeChoice properties d c ∧ TransferChoice properties d t := by
  intro h
  unfold find_queue_family_indices at h
  cases hdir : find_direct_queue_family_index support properties with
  | none => rw [hdir] at h; simp at h
  | some d0 =>
    rw [hdir] at h
    simp only [Option.bind_eq_bind, Option.some_bind, Option.some.injEq, Prod.mk.injEq] at h
    obtain ⟨hd, hcc, htt⟩ := h
    subst hd
    exact ⟨rfl,
      tier_chain_spec properties QueueFlags.COMPUTE
        (QueueFlags.GRAPHICS.union QueueFlags.TRANSFER) QueueFlags.GRAPHICS
        QueueFlags.TRANSFER d0 c hcc,
      tier_chain_spec properties QueueFlags.TRANSFER
        (QueueFlags.GRAPHICS.union QueueFlags.COMPUTE) QueueFlags.GRAPHICS
        QueueFlags.COMPUTE d0 t htt⟩

theorem selectBest_congr {α β : Type} (k1 k2 : Nat → α → Bool) (score : α → Nat)
    (tag : Nat → α → β) (h : ∀ i x, k1 i x = k2 i x) :
    ∀ (l : List α) (i0 : Nat) (acc : Nat × β),
      selectBest k1 score tag l i0 acc = selectBest k2 score tag l i0 acc := by
  intro l
  induction l with
  | nil => intro i0 acc; rfl
  | cons x rest ih =>
    intro i0 acc
    simp only [selectBest, h]
    exact ih _ _

theorem layers_is_supported_iff (s : InstanceRs.Layers) (n : String) :
    s.is_supported n = true ↔ n ∈ s.supported := by
  simp [InstanceRs.Layers.is_supported, List.any_eq_true]

theorem layers_is_enabled_iff (s : InstanceRs.Layers) (n : String) :
    s.is_enabled n = true ↔ n ∈ s.enabled := by
  simp [InstanceRs.Layers.is_enabled, List.any_eq_true]

theorem layers_try_push_fst (s : InstanceRs.Layers) (n : String) :
    (s.try_push n).1 = (s.is_supported n && !(s.is_enabled n)) := by
  cases hs : s.is_supported n <;> cases he : s.is_enabled n <;>
    simp [InstanceRs.Layers.try_push, hs, he]

theorem layers_try_push_true (s : InstanceRs.Layers) (n : String)
    (h : (s.try_push n).1 = true) :
    (s.try_push n).2.enabled = s.enabled ++ [n]
      ∧ (s.try_push n).2.supported = s.supported := by
  rw [layers_try_push_fst, Bool.and_eq_true, Bool.not_eq_true'] at h
  simp only [InstanceRs.Layers.try_push, h.1, h.2, Bool.not_true, Bool.or_false, Bool.false_or]
  rw [if_neg (by simp)]
  split <;> exact ⟨rfl, rfl⟩

theorem layers_try_push_false (s : InstanceRs.Layers) (n : String)
    (h : (s.try_push n).1 = false) : (s.try_push n).2 = s := by
  rw [layers_try_push_fst] at h
  cases hs : s.is_supported n <;> cases he : s.is_enabled n <;>
    rw [hs, he] at h <;> simp [InstanceRs.Layers.try_push, hs, he] at h ⊢

theorem layers_try_push_inv (s : InstanceRs.Layers) (n : String) (h : s.Inv) :
    (s.try_push n).2.Inv := by
  cases hf : (s.try_push n).1 with
  | false => rw [layers_try_push_false s n hf]; exact h
  | true =>
    obtain ⟨hen, hsup⟩ := layers_try_push_true s n hf
    rw [layers_try_push_fst, Bool.and_eq_true, Bool.not_eq_true'] at hf
    have hns : n ∈ s.supported := (layers_is_supported_iff s n).mp hf.1
    have hne : n ∉ s.enabled := fun hc =>
      by rw [(layers_is_enabled_iff s n).mpr hc] at hf; cases hf.2
    constructor
    · intro m hm
      rw [hen] at hm
      rw [hsup]
      rcases List.mem_append.mp hm with hm | hm
      · exact h.1 m hm
      · rw [List.mem_singleton.mp hm]; exact hns
    · rw [hen]
      exact h.2.append (List.nodup_singleton n)
        (fun a ha hb => hne (by rwa [List.mem_singleton.mp hb] at ha))

theorem layers_runOps_inv :
    ∀ (ops : List CapabilityOp) (s s' : InstanceRs.Layers),
      s.Inv → s.runOps ops = some s' → s'.Inv := by
  intro ops
  induction ops with
  | nil =>
    intro s s' h hr
    simp only [InstanceRs.Layers.runOps, Option.some.injEq] at hr
    rw [← hr]; exact h
  | cons op rest ih =>
    intro s s' h hr
    cases op with
    | try_push n =>
      simp only [InstanceRs.Layers.runOps] at hr
      exact ih _ _ (layers_try_push_inv s n h) hr
    | push n =>
      simp only [InstanceRs.Layers.runOps] at hr
      cases hp : s.push n with
      | none => rw [hp] at hr; cases hr
      | some s₂ =>
        rw [hp] at hr
        have h₂ : s₂.Inv := by
          by_cases ht : (s.try_push n).1 = true
          · simp only [InstanceRs.Layers.push, ht, if_true, Option.some.injEq] at hp
            rw [← hp]; exact layers_try_push_inv s n h
          · simp only [InstanceRs.Layers.push, if_neg ht] at hp
            cases hp
        exact ih _ _ h₂ hr

theorem iext_is_supported_iff (s : InstanceRs.Extensions) (n : String) :
    s.is_supported n = true ↔ n ∈ s.supported := by
  simp [InstanceRs.Extensions.is_supported, List.any_eq_true]

theorem iext_is_enabled_iff (s : InstanceRs.Extensions) (n : String) :
    s.is_enabled n = true ↔ n ∈ s.enabled := by
  simp [InstanceRs.Extensions.is_enabled, List.any_eq_true]

theorem iext_try_push_fst (s : InstanceRs.Extensions) (n : String) :
    (s.try_push n).1 = (s.is_supported n && !(s.is_enabled n)) := by
  cases hs : s.is_supported n <;> cases he : s.is_enabled n <;>
    simp [InstanceRs.Extensions.try_push, hs, he]

theorem iext_try_push_true (s : InstanceRs.Extensions) (n : String)
    (h : (s.try_push n).1 = true) :
    (s.try_push n).2.enabled = s.enabled ++ [n]
      ∧ (s.try_push n).2.supported = s.supported := by
  rw [iext_try_push_fst, Bool.and_eq_true, Bool.not_eq_true'] at h
  simp only [InstanceRs.Extensions.try_push, h.1, h.2, Bool.not_true, Bool.or_false,
    Bool.false_or]
  rw [if_neg (by simp)]
  split <;> first
    | exact ⟨rfl, rfl⟩
    | (split <;> first
        | exact ⟨rfl, rfl⟩
        | (split <;> exact ⟨rfl, rfl⟩))

theorem iext_try_push_false (s : InstanceRs.Extensions) (n : String)
    (h : (s.try_push n).1 = false) : (s.try_push n).2 = s := by
  rw [iext_try_push_fst] at h
  cases hs : s.is_supported n <;> cases he : s.is_enabled n <;>
    rw [hs, he] at h <;> simp [InstanceRs.Extensions.try_push, hs, he] at h ⊢

theorem iext_try_push_inv (s : InstanceRs.Extensions) (n : String) (h : s.Inv) :
    (s.try_push n).2.Inv := by
  cases hf : (s.try_push n).1 with
  | false => rw [iext_try_push_false s n hf]; exact h
  | true =>
    obtain ⟨hen, hsup⟩ := iext_try_push_true s n hf
    rw [iext_try_push_fst, Bool.and_eq_true, Bool.not_eq_true'] at hf
    have hns : n ∈ s.supported := (iext_is_supported_iff s n).mp hf.1
    have hne : n ∉ s.enabled := fun hc =>
      by rw [(iext_is_enabled_iff s n).mpr hc] at hf; cases hf.2
    constructor
    · intro m hm
      rw [hen] at hm
      rw [hsup]
      rcases List.mem_append.mp hm with hm | hm
      · exact h.1 m hm
      · rw [List.mem_singleton.mp hm]; exact hns
    · rw [hen]
      exact h.2.append (List.nodup_singleton n)
        (fun a ha hb => hne (by rwa [List.mem_singleton.mp hb] at ha))

theorem iext_runOps_inv :
    ∀ (ops : List CapabilityOp) (s s' : InstanceRs.Extensions),
      s.Inv → s.runOps ops = some s' → s'.Inv := by
  intro ops
  induction ops with
  | nil =>
    intro s s' h hr
    simp only [InstanceRs.Extensions.runOps, Option.some.injEq] at hr
    rw [← hr]; exact h
  | cons op rest ih =>
    intro s s' h hr
    cases op with
    | try_push n =>
      simp only [InstanceRs.Extensions.runOps] at hr
      exact ih _ _ (iext_try_push_inv s n h) hr
    | push n =>
      simp only [InstanceRs.Extensions.runOps] at hr
      cases hp : s.push n with
      | none => rw [hp] at hr; cases hr
      | some s₂ =>
        rw [hp] at hr
        have h₂ : s₂.Inv := by
          by_cases ht : (s.try_push n).1 = true
          · simp only [InstanceRs.Extensions.push, ht, if_true, Option.some.injEq] at hp
            rw [← hp]; exact iext_try_push_inv s n h
          · simp only [InstanceRs.Extensions.push, if_neg ht] at hp
            cases hp
        exact ih _ _ h₂ hr

theorem dext_is_supported_iff (s : DeviceRs.Extensions) (n : String) :
    s.is_supported n = true ↔ n ∈ s.supported := by
  simp [DeviceRs.Extensions.is_supported, List.any_eq_true]

theorem dext_is_enabled_iff (s : DeviceRs.Extensions) (n : String) :
    s.is_enabled n = true ↔ n ∈ s.enabled := by
  simp [DeviceRs.Extensions.is_enabled, List.any_eq_true]

theorem dext_try_push_fst (s : DeviceRs.Extensions) (n : String) :
    (s.try_push n).1 = (s.is_supported n && !(s.is_enabled n)) := by
  cases hs : s.is_supported n <;> cases he : s.is_enabled n <;>
    simp [DeviceRs.Extensions.try_push, hs, he]

theorem dext_try_push_true (s : DeviceRs.Extensions) (n : String)
    (h : (s.try_push n).1 = true) :
    (s.try_push n).2.enabled = s.enabled ++ [n]
      ∧ (s.try_push n).2.supported = s.supported := by
  rw [dext_try_push_fst, Bool.and_eq_true, Bool.not_eq_true'] at h
  simp only [DeviceRs.Extensions.try_push, h.1, h.2, Bool.not_true, Bool.or_false,
    Bool.false_or]
  rw [if_neg (by simp)]
  split <;> first
    | exact ⟨rfl, rfl⟩
    | (split <;> first
        | exact ⟨rfl, rfl⟩
        | (split <;> exact ⟨rfl, rfl⟩))

theorem dext_try_push_false (s : DeviceRs.Extensions) (n : String)
    (h : (s.try_push n).1 = false) : (s.try_push n).2 = s := by
  rw [dext_try_push_fst] at h
  cases hs : s.is_supported n <;> cases he : s.is_enabled n <;>
    rw [hs, he] at h <;> simp [DeviceRs.Extensions.try_push, hs, he] at h ⊢

theorem dext_try_push_inv (s : DeviceRs.Extensions) (n : String) (h : s.Inv) :
    (s.try_push n).2.Inv := by
  cases hf : (s.try_push n).1 with
  | false => rw [dext_try_push_false s n hf]; exact h
  | true =>
    obtain ⟨hen, hsup⟩ := dext_try_push_true s n hf
    rw [dext_try_push_fst, Bool.and_eq_true, Bool.not_eq_true'] at hf
    have hns : n ∈ s.supported := (dext_is_supported_iff s n).mp hf.1
    have hne : n ∉ s.enabled := fun hc =>
      by rw [(dext_is_enabled_iff s n).mpr hc] at hf; cases hf.2
    constructor
    · intro m hm
      rw [hen] at hm
      rw [hsup]
      rcases List.mem_append.mp hm with hm | hm
      · exact h.1 m hm
      · rw [List.mem_singleton.mp hm]; exact hns
    · rw [hen]
      exact h.2.append (List.nodup_singleton n)
        (fun a ha hb => hne (by rwa [List.mem_singleton.mp hb] at ha))

theorem dext_runOps_inv :
    ∀ (ops : List CapabilityOp) (s s' : DeviceRs.Extensions),
      s.Inv → s.runOps ops = some s' → s'.Inv := by
  intro ops
  induction ops with
  | nil =>
    intro s s' h hr
    simp only [DeviceRs.Extensions.runOps, Option.some.injEq] at hr
    rw [← hr]; exact h
  | cons op rest ih =>
    intro s s' h hr
    cases op with
    | try_push n =>
      simp only [DeviceRs.Extensions.runOps] at hr
      exact ih _ _ (dext_try_push_inv s n h) hr
    | push n =>
      simp only [DeviceRs.Extensions.runOps] at hr
      cases hp : s.push n with
      | none => rw [hp] at hr; cases hr
      | some s₂ =>
        rw [hp] at hr
        have h₂ : s₂.Inv := by
          by_cases ht : (s.try_push n).1 = true
          · simp only [DeviceRs.Extensions.push, ht, if_true, Option.some.injEq] at hp
            rw [← hp]; exact dext_try_push_inv s n h
          · simp only [DeviceRs.Extensions.push, if_neg ht] at hp
            cases hp
        exact ih _ _ h₂ hr

theorem foldl_append_singleton {α β : Type} (f : α → β) :
    ∀ (l : List α) (init : List β),
      l.foldl (fun t x => t ++ [f x]) init = init ++ l.map f := by
  intro l
  induction l with
  | nil => intro init; simp
  | cons x t ih =>
    intro init
    simp only [List.foldl_cons, List.map_cons, ih]
    simp [List.append_assoc]

theorem swapchain_drop_eq (s : SwapchainState) :
    swapchain_drop s
      = s.framebuffers.map DestroyEvent.destroy_framebuffer
        ++ s.image_views.map DestroyEvent.destroy_image_view
        ++ [DestroyEvent.destroy_swapchain s.swapchain]
        ++ [DestroyEvent.destroy_render_pass s.render_pass] := by
  unfold swapchain_drop
  rw [foldl_append_singleton, foldl_append_singleton]
  simp

theorem swapchain_drop_no_image (s : SwapchainState) (h : Nat) :
    DestroyEvent.destroy_image h ∉ swapchain_drop s := by
  rw [swapchain_drop_eq]
  simp [List.mem_append, List.mem_map]

theorem get?_append_cases {α : Type} (l₁ l₂ : List α) (i : Nat) (x : α)
    (h : (l₁ ++ l₂).get? i = some x) :
    (i < l₁.length ∧ l₁.get? i = some x)
      ∨ (l₁.length ≤ i ∧ l₂.get? (i - l₁.length) = some x) := by
  rcases Nat.lt_or_ge i l₁.length with hlt | hge
  · left; rw [List.get?_append hlt] at h; exact ⟨hlt, h⟩
  · right; rw [List.get?_append_right hge] at h; exact ⟨hge, h⟩

theorem get?_map_cases {α β : Type} (f : α → β) (l : List α) (i : Nat) (x : β)
    (h : (l.map f).get? i = some x) : ∃ a, l.get? i = some a ∧ x = f a := by
  rw [List.get?_map] at h
  cases ha : l.get? i with
  | none => rw [ha] at h; cases h
  | some a => rw [ha] at h; injection h with h; exact ⟨a, rfl, h.symm⟩

theorem swapchain_drop_bounds (s : SwapchainState) (i : Nat) (e : DestroyEvent)
    (h : (swapchain_drop s).get? i = some e) :
    e.phase ≤ 3
      ∧ phaseLow s.framebuffers.length s.image_views.length e.phase ≤ i
      ∧ i < phaseHigh s.framebuffers.length s.image_views.length e.phase := by
  rw [swapchain_drop_eq] at h
  rcases get?_append_cases _ _ _ _ h with ⟨hb1, h1⟩ | ⟨hb1, h1⟩
  · rcases get?_append_cases _ _ _ _ h1 with ⟨hb2, h2⟩ | ⟨hb2, h2⟩
    · rcases get?_append_cases _ _ _ _ h2 with ⟨hb3, h3⟩ | ⟨hb3, h3⟩
      · obtain ⟨a, -, he⟩ := get?_map_cases _ _ _ _ h3
        subst he
        simp only [List.length_map] at hb3
        refine ⟨by simp [DestroyEvent.phase], ?_, ?_⟩ <;>
          simp only [DestroyEvent.phase, phaseLow, phaseHigh] <;> omega
      · obtain ⟨a, ha, he⟩ := get?_map_cases _ _ _ _ h3
        subst he
        obtain ⟨hlt, -⟩ := List.get?_eq_some.mp ha
        simp only [List.length_map] at hb3 hlt
        refine ⟨by simp [DestroyEvent.phase], ?_, ?_⟩ <;>
          simp only [DestroyEvent.phase, phaseLow, phaseHigh] <;> omega
    · simp only [List.length_append, List.length_map] at hb1 hb2 h2
      obtain ⟨hlt, -⟩ := List.get?_eq_some.mp h2
      simp only [List.length_singleton] at hlt
      have hi : i - (s.framebuffers.length + s.image_views.length) = 0 := by omega
      rw [hi] at h2
      simp only [List.get?_cons_zero] at h2
      injection h2 with h2
      rw [← h2]
      refine ⟨by simp [DestroyEvent.phase], ?_, ?_⟩ <;>
        simp only [DestroyEvent.phase, phaseLow, phaseHigh] <;> omega
  · simp only [List.length_append, List.length_map, List.length_singleton] at hb1 h1
    obtain ⟨hlt, -⟩ := List.get?_eq_some.mp h1
    simp only [List.length_singleton] at hlt
    have hi : i - (s.framebuffers.length + s.image_views.length + 1) = 0 := by omega
    rw [hi] at h1
    simp only [List.get?_cons_zero] at h1
    injection h1 with h1
    rw [← h1]
    refine ⟨by simp [DestroyEvent.phase], ?_, ?_⟩ <;>
      simp only [DestroyEvent.phase, phaseLow, phaseHigh] <;> omega

theorem phaseHigh_le_phaseLow (nf nv p q : Nat) (hpq : p < q) (hq : q ≤ 3) :
    phaseHigh nf nv p ≤ phaseLow nf nv q := by
  interval_cases q <;> interval_cases p <;>
    simp [phaseLow, phaseHigh] <;> omega

/-! ## Claim theorems -/

/-- Claim C1, counterexample to the claim as stated: on the supported-format
list `[BGRA8-UNORM, RGBA8-sRGB]`, which offers no extended-range format, the
code picks BGRA8-UNORM (the first supported entry belonging to the LDR set),
while the claim's fixed preference order RGBA8-sRGB, BGRA8-sRGB, RGBA8-UNORM,
BGRA8-UNORM would pick RGBA8-sRGB. -/
theorem surface_format_preference_counterexample :
    used_surface_format c1_formats
        = Except.ok ⟨Format.B8G8R8A8_UNORM, ColorSpaceKHR.SRGB_NONLINEAR⟩
      ∧ spec_surface_format_selection c1_formats
        = Except.ok ⟨Format.R8G8B8A8_SRGB, ColorSpaceKHR.SRGB_NONLINEAR⟩
      ∧ used_surface_format c1_formats ≠ spec_surface_format_selection c1_formats := by
  refine ⟨rfl, rfl, ?_⟩
  intro h
  injection h with h
  injection h with h1 h2
  exact Format.noConfusion h1

/-- Claim C1, amended: `Swapchain::new` picks the first supported entry that
is `R16G16B16A16_SFLOAT` with extended-sRGB-linear color space when one
exists; otherwise the first entry of the supported list (in the list's own
order, not a fixed preference order) whose format is among RGBA8-sRGB,
BGRA8-sRGB, RGBA8-UNORM, BGRA8-UNORM; if neither policy finds a match it
fails with `NoSuitableSurfaceFormat`. -/
theorem surface_format_selection_amended (l : List SurfaceFormatKHR) :
    (used_surface_format l = Except.error SwapchainError.NoSuitableSurfaceFormat
        ↔ ∀ f ∈ l, SurfaceFormats.hdrCandidate f = false ∧ SurfaceFormats.ldrCandidate f = false)
      ∧ (∀ f, used_surface_format l = Except.ok f →
          FirstSuch SurfaceFormats.hdrCandidate l f
            ∨ ((∀ g ∈ l, SurfaceFormats.hdrCandidate g = false)
                ∧ FirstSuch SurfaceFormats.ldrCandidate l f)) := by
  cases hh : l.find? SurfaceFormats.hdrCandidate with
  | some f0 =>
    have he : used_surface_format l = Except.ok f0 := by
      unfold used_surface_format SurfaceFormats.find_hdr_format
      rw [hh]; rfl
    constructor
    · rw [he]
      constructor
      · intro h; cases h
      · intro hall
        exact absurd (List.find?_some hh)
          (by simp [(hall f0 (List.mem_of_find?_eq_some hh)).1])
    · intro f hf
      rw [he] at hf
      injection hf with hf
      subst hf
      exact Or.inl ((find?_eq_some_iff_FirstSuch _ _ _).mp hh)
  | none =>
    have hhdrall : ∀ g ∈ l, SurfaceFormats.hdrCandidate g = false :=
      (find?_eq_none_iff _ _).mp hh
    cases hl : l.find? SurfaceFormats.ldrCandidate with
    | some f0 =>
      have he : used_surface_format l = Except.ok f0 := by
        unfold used_surface_format SurfaceFormats.find_hdr_format SurfaceFormats.find_ldr_format
        rw [hh, hl]; rfl
      constructor
      · rw [he]
        constructor
        · intro h; cases h
        · intro hall
          exact absurd (List.find?_some hl)
            (by simp [(hall f0 (List.mem_of_find?_eq_some hl)).2])
      · intro f hf
        rw [he] at hf
        injection hf with hf
        subst hf
        exact Or.inr ⟨hhdrall, (find?_eq_some_iff_FirstSuch _ _ _).mp hl⟩
    | none =>
      have he : used_surface_format l = Except.error SwapchainError.NoSuitableSurfaceFormat := by
        unfold used_surface_format SurfaceFormats.find_hdr_format SurfaceFormats.find_ldr_format
        rw [hh, hl]; rfl
      constructor
      · rw [he]
        exact ⟨fun _ f hf => ⟨hhdrall f hf, (find?_eq_none_iff _ _).mp hl f hf⟩, fun _ => rfl⟩
      · intro f hf
        rw [he] at hf
        cases hf

/-- Witness for the amended claim C1 at the concrete list `c1_formats`. -/
theorem surface_format_selection_amended_witness :
    used_surface_format c1_formats
        = Except.ok ⟨Format.B8G8R8A8_UNORM, ColorSpaceKHR.SRGB_NONLINEAR⟩
      ∧ (FirstSuch SurfaceFormats.hdrCandidate c1_formats
            ⟨Format.B8G8R8A8_UNORM, ColorSpaceKHR.SRGB_NONLINEAR⟩
          ∨ ((∀ g ∈ c1_formats, SurfaceFormats.hdrCandidate g = false)
              ∧ FirstSuch SurfaceFormats.ldrCandidate c1_formats
                  ⟨Format.B8G8R8A8_UNORM, ColorSpaceKHR.SRGB_NONLINEAR⟩)) :=
  ⟨rfl, (surface_format_selection_amended c1_formats).2
    ⟨Format.B8G8R8A8_UNORM, ColorSpaceKHR.SRGB_NONLINEAR⟩ rfl⟩

/-- Claim C2: queue-family classification.  For every queue-family list and
presentation oracle, the direct family search fails exactly when no family
supports graphics+compute+transfer with a nonzero queue count and
presentation, and a found direct family satisfies all of that with the
largest queue count; a successful classification makes the compute family
follow the tiers compute-not-graphics-not-transfer, compute-not-graphics,
compute-not-transfer, direct fallback (largest queue count within the tier)
and the transfer family the symmetric tiers; on the spec's two-family mock
device the result is direct=0, compute=1, transfer=0. -/
theorem queue_family_classification :
    (∀ (present : Nat → Bool) (properties : List QueueFamilyProperties),
      (find_direct_queue_family_index (fun i => Except.ok (present i)) properties = none
          ↔ ∀ i, ¬ DirectQualifies present properties i)
        ∧ (∀ d, find_direct_queue_family_index (fun i => Except.ok (present i)) properties
              = some d → DirectChosen present properties d)
        ∧ (∀ d c t, find_queue_family_indices (fun i => Except.ok (present i)) properties
              = some (d, c, t) →
            find_direct_queue_family_index (fun i => Except.ok (present i)) properties = some d
              ∧ ComputeChoice properties d c ∧ TransferChoice properties d t))
      ∧ find_queue_family_indices mock_present_support mock_queue_families = some (0, 1, 0) := by
  refine ⟨fun present properties => ⟨?_, ?_, ?_⟩, ?_⟩
  · exact find_direct_queue_family_index_none_iff present properties
  · exact find_direct_queue_family_index_some present properties
  · exact fun d c t h => find_queue_family_indices_spec _ properties d c t h
  · decide

/-- Witness for claim C2 at the mock device: the classification returns
(0, 1, 0) and the three choices satisfy the claim's policies. -/
theorem queue_family_classification_witness :
    find_queue_family_indices mock_present_support mock_queue_families = some (0, 1, 0)
      ∧ DirectChosen (fun i => decide (i = 0)) mock_queue_families 0
      ∧ ComputeChoice mock_queue_families 0 1
      ∧ TransferChoice mock_queue_families 0 0 := by
  have h := queue_family_classification
  have hs : find_queue_family_indices
      (fun i => Except.ok (decide (i = 0)) : Nat → Except DriverError Bool)
      mock_queue_families = some (0, 1, 0) := h.2
  have htriple := (h.1 (fun i => decide (i = 0)) mock_queue_families).2.2 0 1 0 hs
  exact ⟨h.2, (h.1 (fun i => decide (i = 0)) mock_queue_families).2.1 0 htriple.1,
    htriple.2.1, htriple.2.2⟩

/-- Claim C3, exhibit of the code bug: the instance-level gate rejects a
reported version 2.0 (which is not below the 1.1 floor) because it tests
`major < 1 || minor < 1`, and the device-level gate accepts a device
version 0.1 (which is below the floor) because it reads the minor field
into `major`; version 1.1 itself is accepted at both levels. -/
theorem api_version_floor_bug :
    instance_negotiation_version (make_api_version 0 2 0 0)
        = Except.error RendererError.VersionUnsupported
      ∧ ¬ spec_version_below_1_1 (make_api_version 0 2 0 0)
      ∧ device_negotiation_version (make_api_version 0 0 1 0) = Except.ok ()
      ∧ spec_version_below_1_1 (make_api_version 0 0 1 0)
      ∧ instance_negotiation_version (make_api_version 0 1 1 0)
        = Except.ok (make_api_version 0 1 1 0)
      ∧ device_negotiation_version (make_api_version 0 1 1 0) = Except.ok () := by
  refine ⟨rfl, by decide, rfl, by decide, rfl, rfl⟩

/-- Claim C4, exhibit of the code bug: on a device whose family 0 is
graphics+compute+transfer (4 queues, presentable) and family 1 is
compute+transfer (2 queues), classification yields direct=0, compute=1,
transfer=1, and `Device::new` then builds three queue-creation requests
`[0, 1, 1]` — the family 1 shared by the compute and transfer roles
contributes two requests, not one, so the request list is not duplicate-free
as the claim demands. -/
theorem duplicate_queue_request_bug :
    find_queue_family_indices (fun _ => Except.ok true) c4_properties = some (0, 1, 1)
      ∧ (device_queue_create_infos 0 1 1).map DeviceQueueCreateInfo.queue_family_index
        = [0, 1, 1]
      ∧ ¬ ((device_queue_create_infos 0 1 1).map
            DeviceQueueCreateInfo.queue_family_index).Nodup := by
  refine ⟨by decide, by decide, by decide⟩

/-- Claim C6, counterexample to the claim as stated: on a single qualifying
family the failure of the presentation-support query is not propagated —
`find_direct_queue_family_index` consumes it with `unwrap_or(false)` and
reports that no suitable family exists (`none`), exactly as if the query had
answered "no presentation support", while the same family is found when the
query succeeds. -/
theorem present_support_error_counterexample :
    find_direct_queue_family_index
        (fun _ => Except.error (DriverError.DriverCallFailed (-4))) c6_properties = none
      ∧ find_direct_queue_family_index (fun _ => Except.ok true) c6_properties = some 0 := by
  refine ⟨by decide, by decide⟩

/-- Claim C6, amended: the presentation-support query's failure during
direct-queue-family resolution is treated as "family does not support
presentation" rather than propagated — two oracles that agree after the
source's `unwrap_or(false)` coercion (in particular, an erroring oracle and
one answering `false`) produce identical resolutions. -/
theorem present_support_error_ignored
    (properties : List QueueFamilyProperties)
    (s1 s2 : Nat → Except DriverError Bool)
    (h : ∀ i, (s1 i).toOption.getD false = (s2 i).toOption.getD false) :
    find_direct_queue_family_index s1 properties
      = find_direct_queue_family_index s2 properties := by
  unfold find_direct_queue_family_index
  rw [selectBest_congr _ _ _ _ (fun i x => by rw [h i]) properties 0 (0, 0)]

/-- Witness for the amended claim C6: an always-failing oracle resolves like
the always-false oracle on the single-family list. -/
theorem present_support_error_ignored_witness :
    (∀ i, ((fun _ => Except.error (DriverError.DriverCallFailed (-4)) :
          Nat → Except DriverError Bool) i).toOption.getD false
        = ((fun _ => Except.ok false : Nat → Except DriverError Bool) i).toOption.getD false)
      ∧ find_direct_queue_family_index
          (fun _ => Except.error (DriverError.DriverCallFailed (-4))) c6_properties
        = find_direct_queue_family_index (fun _ => Except.ok false) c6_properties :=
  ⟨fun _ => rfl,
    present_support_error_ignored c6_properties _ _ (fun _ => rfl)⟩

/-- Claim C5, counterexample to the claim as stated: with an integrated
device enumerated first and a discrete device whose device-local heap sum is
zero, the selection returns the integrated device's handle 1 — the fallback
to the first enumerated device also fires when discrete devices exist but
none has a positive device-local heap sum, not only when no discrete device
exists. -/
theorem physical_device_fallback_counterexample :
    find_optimal_physical_device c5_devices = some 1
      ∧ c5_devices.get? 1 = some ⟨2, PhysicalDeviceType.DISCRETE_GPU, []⟩
      ∧ (∀ e ∈ c5_devices, e.device_type = PhysicalDeviceType.DISCRETE_GPU → e.handle = 2)
      ∧ (1 : Nat) ≠ 2 := by
  refine ⟨by decide, by decide, by decide, by decide⟩

/-- Claim C5, amended: for every enumerated list (with valid, nonzero
handles), if no discrete device has a positive device-local heap sum the
selection returns the first enumerated device's handle (panicking on an
empty list); otherwise it returns the handle of a discrete device with the
greatest device-local heap sum among discrete devices, ignoring non-discrete
devices.  The selection is a pure function of the list. -/
theorem physical_device_selection_amended (l : List PhysicalDevice)
    (hnz : ∀ d ∈ l, d.handle ≠ 0) :
    ((∀ d ∈ l, d.device_type = PhysicalDeviceType.DISCRETE_GPU →
        device_local_heap_size d = 0) →
      find_optimal_physical_device l = l.head?.map PhysicalDevice.handle)
    ∧ (∀ d ∈ l, d.device_type = PhysicalDeviceType.DISCRETE_GPU →
        0 < device_local_heap_size d →
        ∃ e, e ∈ l ∧ e.device_type = PhysicalDeviceType.DISCRETE_GPU
          ∧ 0 < device_local_heap_size e
          ∧ find_optimal_physical_device l = some e.handle
          ∧ ∀ f ∈ l, f.device_type = PhysicalDeviceType.DISCRETE_GPU →
              device_local_heap_size f ≤ device_local_heap_size e) := by
  obtain ⟨h1, h2, h3, h4⟩ := selectBest_spec
    (fun _ d => decide (d.device_type = PhysicalDeviceType.DISCRETE_GPU))
    device_local_heap_size (fun _ d => d.handle) l 0 0 0
  constructor
  · intro hzero
    have hr1 : (selectBest
        (fun _ d => decide (d.device_type = PhysicalDeviceType.DISCRETE_GPU))
        device_local_heap_size (fun _ d => d.handle) l 0 (0, 0)).1 = 0 := by
      rcases Nat.eq_zero_or_pos (selectBest
          (fun _ d => decide (d.device_type = PhysicalDeviceType.DISCRETE_GPU))
          device_local_heap_size (fun _ d => d.handle) l 0 (0, 0)).1 with hz | hpos
      · exact hz
      · obtain ⟨k, d, hk, hkeep, hscore, -⟩ := h3 hpos
        have : device_local_heap_size d = 0 :=
          hzero d (List.get?_mem hk) (of_decide_eq_true hkeep)
        rw [this] at hscore
        omega
    simp only [find_optimal_physical_device]
    rw [if_pos (h4 hr1)]
  · intro d hd hdisc hpos0
    obtain ⟨k0, hk0⟩ := List.get?_of_mem hd
    have hle := h2 k0 d hk0 (by simp [hdisc])
    have hrpos := Nat.lt_of_lt_of_le hpos0 hle
    obtain ⟨k, e, hk, hkeep, hscore, htag⟩ := h3 hrpos
    have hemem : e ∈ l := List.get?_mem hk
    refine ⟨e, hemem, of_decide_eq_true hkeep, by rw [hscore]; exact hrpos, ?_, ?_⟩
    · simp only [find_optimal_physical_device]
      rw [if_neg (htag ▸ hnz e hemem), htag]
    · intro f hf hfdisc
      obtain ⟨kf, hkf⟩ := List.get?_of_mem hf
      have := h2 kf f hkf (by simp [hfdisc])
      rw [hscore]
      exact this

/-- Witness for the amended claim C5 on the single-discrete-device list. -/
theorem physical_device_selection_amended_witness :
    (∀ d ∈ c5_discrete_devices, d.handle ≠ 0)
      ∧ ∃ e, e ∈ c5_discrete_devices
          ∧ e.device_type = PhysicalDeviceType.DISCRETE_GPU
          ∧ 0 < device_local_heap_size e
          ∧ find_optimal_physical_device c5_discrete_devices = some e.handle
          ∧ ∀ f ∈ c5_discrete_devices, f.device_type = PhysicalDeviceType.DISCRETE_GPU →
              device_local_heap_size f ≤ device_local_heap_size e :=
  ⟨by decide, (physical_device_selection_amended c5_discrete_devices (by decide)).2
    ⟨3, PhysicalDeviceType.DISCRETE_GPU, [⟨16, true⟩]⟩ (by decide) (by decide) (by decide)⟩

/-- Claim C10: on an empty enumerated list `find_optimal_physical_device`
reaches the unconditional `physical_devices[0]` fallback and panics
(modelled as `none`); on every non-empty list a device is returned. -/
theorem find_optimal_physical_device_empty :
    find_optimal_physical_device [] = none
      ∧ ∀ (l : List PhysicalDevice), l ≠ [] →
          (find_optimal_physical_device l).isSome = true := by
  constructor
  · rfl
  · intro l hl
    simp only [find_optimal_physical_device]
    split
    · cases l with
      | nil => exact absurd rfl hl
      | cons a t => rfl
    · rfl

/-- Witness for claim C10 on a one-element list. -/
theorem find_optimal_physical_device_empty_witness :
    ([⟨5, PhysicalDeviceType.CPU, []⟩] : List PhysicalDevice) ≠ []
      ∧ (find_optimal_physical_device [⟨5, PhysicalDeviceType.CPU, []⟩]).isSome = true :=
  ⟨by decide, find_optimal_physical_device_empty.2 _ (by decide)⟩

theorem layers_try_push_true_iff (s : InstanceRs.Layers) (n : String) :
    (s.try_push n).1 = true ↔ n ∈ s.supported ∧ n ∉ s.enabled := by
  rw [layers_try_push_fst, Bool.and_eq_true, Bool.not_eq_true']
  constructor
  · intro h
    refine ⟨(layers_is_supported_iff s n).mp h.1, fun hc => ?_⟩
    rw [(layers_is_enabled_iff s n).mpr hc] at h
    cases h.2
  · intro ⟨h1, h2⟩
    refine ⟨(layers_is_supported_iff s n).mpr h1, ?_⟩
    cases he : s.is_enabled n with
    | true => exact absurd ((layers_is_enabled_iff s n).mp he) h2
    | false => rfl

theorem iext_try_push_true_iff (s : InstanceRs.Extensions) (n : String) :
    (s.try_push n).1 = true ↔ n ∈ s.supported ∧ n ∉ s.enabled := by
  rw [iext_try_push_fst, Bool.and_eq_true, Bool.not_eq_true']
  constructor
  · intro h
    refine ⟨(iext_is_supported_iff s n).mp h.1, fun hc => ?_⟩
    rw [(iext_is_enabled_iff s n).mpr hc] at h
    cases h.2
  · intro ⟨h1, h2⟩
    refine ⟨(iext_is_supported_iff s n).mpr h1, ?_⟩
    cases he : s.is_enabled n with
    | true => exact absurd ((iext_is_enabled_iff s n).mp he) h2
    | false => rfl

theorem dext_try_push_true_iff (s : DeviceRs.Extensions) (n : String) :
    (s.try_push n).1 = true ↔ n ∈ s.supported ∧ n ∉ s.enabled := by
  rw [dext_try_push_fst, Bool.and_eq_true, Bool.not_eq_true']
  constructor
  · intro h
    refine ⟨(dext_is_supported_iff s n).mp h.1, fun hc => ?_⟩
    rw [(dext_is_enabled_iff s n).mpr hc] at h
    cases h.2
  · intro ⟨h1, h2⟩
    refine ⟨(dext_is_supported_iff s n).mpr h1, ?_⟩
    cases he : s.is_enabled n with
    | true => exact absurd ((dext_is_enabled_iff s n).mp he) h2
    | false => rfl

theorem layers_push_none_iff (s : InstanceRs.Layers) (n : String) :
    s.push n = none ↔ n ∉ s.supported ∨ n ∈ s.enabled := by
  cases hb : (s.try_push n).1 with
  | true =>
    simp only [InstanceRs.Layers.push, hb, if_true]
    obtain ⟨hs, he⟩ := (layers_try_push_true_iff s n).mp hb
    constructor
    · intro h; cases h
    · rintro (hc | hc)
      · exact absurd hs hc
      · exact absurd hc he
  | false =>
    simp only [InstanceRs.Layers.push, hb, Bool.false_eq_true, if_false]
    constructor
    · intro _
      by_cases hs : n ∈ s.supported
      · by_cases he : n ∈ s.enabled
        · exact Or.inr he
        · rw [(layers_try_push_true_iff s n).mpr ⟨hs, he⟩] at hb; cases hb
      · exact Or.inl hs
    · intro _; trivial

theorem iext_push_none_iff (s : InstanceRs.Extensions) (n : String) :
    s.push n = none ↔ n ∉ s.supported ∨ n ∈ s.enabled := by
  cases hb : (s.try_push n).1 with
  | true =>
    simp only [InstanceRs.Extensions.push, hb, if_true]
    obtain ⟨hs, he⟩ := (iext_try_push_true_iff s n).mp hb
    constructor
    · intro h; cases h
    · rintro (hc | hc)
      · exact absurd hs hc
      · exact absurd hc he
  | false =>
    simp only [InstanceRs.Extensions.push, hb, Bool.false_eq_true, if_false]
    constructor
    · intro _
      by_cases hs : n ∈ s.supported
      · by_cases he : n ∈ s.enabled
        · exact Or.inr he
        · rw [(iext_try_push_true_iff s n).mpr ⟨hs, he⟩] at hb; cases hb
      · exact Or.inl hs
    · intro _; trivial

theorem dext_push_none_iff (s : DeviceRs.Extensions) (n : String) :
    s.push n = none ↔ n ∉ s.supported ∨ n ∈ s.enabled := by
  cases hb : (s.try_push n).1 with
  | true =>
    simp only [DeviceRs.Extensions.push, hb, if_true]
    obtain ⟨hs, he⟩ := (dext_try_push_true_iff s n).mp hb
    constructor
    · intro h; cases h
    · rintro (hc | hc)
      · exact absurd hs hc
      · exact absurd hc he
  | false =>
    simp only [DeviceRs.Extensions.push, hb, Bool.false_eq_true, if_false]
    constructor
    · intro _
      by_cases hs : n ∈ s.supported
      · by_cases he : n ∈ s.enabled
        · exact Or.inr he
        · rw [(dext_try_push_true_iff s n).mpr ⟨hs, he⟩] at hb; cases hb
      · exact Or.inl hs
    · intro _; trivial

theorem layers_push_some (s : InstanceRs.Layers) (n : String) (s' : InstanceRs.Layers)
    (h : s.push n = some s') : s'.is_enabled n = true := by
  cases hb : (s.try_push n).1 with
  | false => simp only [InstanceRs.Layers.push, hb, Bool.false_eq_true, if_false] at h; cases h
  | true =>
    simp only [InstanceRs.Layers.push, hb, if_true, Option.some.injEq] at h
    obtain ⟨hen, -⟩ := layers_try_push_true s n hb
    rw [← h]
    exact (layers_is_enabled_iff _ n).mpr (by rw [hen]; exact List.mem_append_right _ (List.mem_singleton_self n))

theorem iext_push_some (s : InstanceRs.Extensions) (n : String) (s' : InstanceRs.Extensions)
    (h : s.push n = some s') : s'.is_enabled n = true := by
  cases hb : (s.try_push n).1 with
  | false => simp only [InstanceRs.Extensions.push, hb, Bool.false_eq_true, if_false] at h; cases h
  | true =>
    simp only [InstanceRs.Extensions.push, hb, if_true, Option.some.injEq] at h
    obtain ⟨hen, -⟩ := iext_try_push_true s n hb
    rw [← h]
    exact (iext_is_enabled_iff _ n).mpr (by rw [hen]; exact List.mem_append_right _ (List.mem_singleton_self n))

theorem dext_push_some (s : DeviceRs.Extensions) (n : String) (s' : DeviceRs.Extensions)
    (h : s.push n = some s') : s'.is_enabled n = true := by
  cases hb : (s.try_push n).1 with
  | false => simp only [DeviceRs.Extensions.push, hb, Bool.false_eq_true, if_false] at h; cases h
  | true =>
    simp only [DeviceRs.Extensions.push, hb, if_true, Option.some.injEq] at h
    obtain ⟨hen, -⟩ := dext_try_push_true s n hb
    rw [← h]
    exact (dext_is_enabled_iff _ n).mpr (by rw [hen]; exact List.mem_append_right _ (List.mem_singleton_self n))

/-- Claim C7: for each of the three capability sets (instance layers,
instance extensions, device extensions), `try_push` returns true and appends
the name exactly when the name is supported and not yet enabled, is a no-op
returning false otherwise, and any sequence of `try_push`/`push` calls
preserves the invariant that every enabled name is supported and no name is
enabled twice. -/
theorem capability_set_invariant :
    (∀ (s : InstanceRs.Layers) (n : String),
        ((s.try_push n).1 = true ↔ n ∈ s.supported ∧ n ∉ s.enabled)
        ∧ ((s.try_push n).1 = true →
            (s.try_push n).2.enabled = s.enabled ++ [n]
              ∧ (s.try_push n).2.supported = s.supported)
        ∧ ((s.try_push n).1 = false → (s.try_push n).2 = s))
    ∧ (∀ (ops : List CapabilityOp) (s s' : InstanceRs.Layers),
        s.Inv → s.runOps ops = some s' → s'.Inv)
    ∧ (∀ (s : InstanceRs.Extensions) (n : String),
        ((s.try_push n).1 = true ↔ n ∈ s.supported ∧ n ∉ s.enabled)
        ∧ ((s.try_push n).1 = true →
            (s.try_push n).2.enabled = s.enabled ++ [n]
              ∧ (s.try_push n).2.supported = s.supported)
        ∧ ((s.try_push n).1 = false → (s.try_push n).2 = s))
    ∧ (∀ (ops : List CapabilityOp) (s s' : InstanceRs.Extensions),
        s.Inv → s.runOps ops = some s' → s'.Inv)
    ∧ (∀ (s : DeviceRs.Extensions) (n : String),
        ((s.try_push n).1 = true ↔ n ∈ s.supported ∧ n ∉ s.enabled)
        ∧ ((s.try_push n).1 = true →
            (s.try_push n).2.enabled = s.enabled ++ [n]
              ∧ (s.try_push n).2.supported = s.supported)
        ∧ ((s.try_push n).1 = false → (s.try_push n).2 = s))
    ∧ (∀ (ops : List CapabilityOp) (s s' : DeviceRs.Extensions),
        s.Inv → s.runOps ops = some s' → s'.Inv) :=
  ⟨fun s n => ⟨layers_try_push_true_iff s n, layers_try_push_true s n, layers_try_push_false s n⟩,
    layers_runOps_inv,
    fun s n => ⟨iext_try_push_true_iff s n, iext_try_push_true s n, iext_try_push_false s n⟩,
    iext_runOps_inv,
    fun s n => ⟨dext_try_push_true_iff s n, dext_try_push_true s n, dext_try_push_false s n⟩,
    dext_runOps_inv⟩

/-- Witness for claim C7: a concrete `try_push`/`push` sequence on a layer
set supporting `"a"` and `"b"` preserves the invariant. -/
theorem capability_set_invariant_witness :
    InstanceRs.Layers.Inv ⟨["a", "b"], [], false⟩
      ∧ InstanceRs.Layers.runOps ⟨["a", "b"], [], false⟩
          [CapabilityOp.try_push "a", CapabilityOp.push "b"]
        = some ⟨["a", "b"], ["a", "b"], false⟩
      ∧ InstanceRs.Layers.Inv ⟨["a", "b"], ["a", "b"], false⟩ :=
  ⟨⟨by decide, by decide⟩, by decide,
    capability_set_invariant.2.1 [CapabilityOp.try_push "a", CapabilityOp.push "b"]
      ⟨["a", "b"], [], false⟩ ⟨["a", "b"], ["a", "b"], false⟩ ⟨by decide, by decide⟩ (by decide)⟩

/-- Claim C8, counterexample to the claim as stated: enabling the supported
name `"a"` twice through `enable` is fatal — `try_push` then `push` of the
same supported name panics on the `assert!` (modelled by `none`), although
the claim demands that `enable` of a supported name never signals a fatal
error. -/
theorem enable_already_enabled_fatal :
    InstanceRs.Layers.runOps c8_layers
        [CapabilityOp.try_push "a", CapabilityOp.push "a"] = none
      ∧ c8_layers.is_supported "a" = true := by
  refine ⟨by decide, by decide⟩

/-- Claim C8, amended: for each capability set, `enable` signals a fatal
error exactly when the name is unsupported or already enabled; for a
supported, not-yet-enabled name it succeeds and the name is enabled
afterwards. -/
theorem enable_fatal_amended :
    (∀ (s : InstanceRs.Layers) (n : String),
        (s.push n = none ↔ n ∉ s.supported ∨ n ∈ s.enabled)
        ∧ ∀ s', s.push n = some s' → s'.is_enabled n = true)
    ∧ (∀ (s : InstanceRs.Extensions) (n : String),
        (s.push n = none ↔ n ∉ s.supported ∨ n ∈ s.enabled)
        ∧ ∀ s', s.push n = some s' → s'.is_enabled n = true)
    ∧ (∀ (s : DeviceRs.Extensions) (n : String),
        (s.push n = none ↔ n ∉ s.supported ∨ n ∈ s.enabled)
        ∧ ∀ s', s.push n = some s' → s'.is_enabled n = true) :=
  ⟨fun s n => ⟨layers_push_none_iff s n, layers_push_some s n⟩,
    fun s n => ⟨iext_push_none_iff s n, iext_push_some s n⟩,
    fun s n => ⟨dext_push_none_iff s n, dext_push_some s n⟩⟩

/-- Witness for the amended claim C8: enabling the supported, not-yet-enabled
name `"a"` succeeds and it is enabled afterwards. -/
theorem enable_fatal_amended_witness :
    InstanceRs.Layers.push c8_layers "a" = some ⟨["a"], ["a"], false⟩
      ∧ InstanceRs.Layers.is_enabled ⟨["a"], ["a"], false⟩ "a" = true :=
  ⟨by decide, (enable_fatal_amended.1 c8_layers "a").2 ⟨["a"], ["a"], false⟩ (by decide)⟩

/-- Claim C9: the teardown of a swapchain destroys exactly its framebuffers
(in order), then its image views, then the presentable-chain handle, then
the render-target description; no destroy of any other phase precedes one of
an earlier phase, and no swapchain image is ever destroyed. -/
theorem swapchain_teardown_order (s : SwapchainState) :
    swapchain_drop s
        = s.framebuffers.map DestroyEvent.destroy_framebuffer
          ++ s.image_views.map DestroyEvent.destroy_image_view
          ++ [DestroyEvent.destroy_swapchain s.swapchain]
          ++ [DestroyEvent.destroy_render_pass s.render_pass]
      ∧ (∀ h, DestroyEvent.destroy_image h ∉ swapchain_drop s)
      ∧ (∀ i j ei ej, (swapchain_drop s).get? i = some ei →
          (swapchain_drop s).get? j = some ej → ei.phase < ej.phase → i < j) := by
  refine ⟨swapchain_drop_eq s, swapchain_drop_no_image s, ?_⟩
  intro i j ei ej hi hj hlt
  obtain ⟨-, -, hhii⟩ := swapchain_drop_bounds s i ei hi
  obtain ⟨hpj, hloj, -⟩ := swapchain_drop_bounds s j ej hj
  exact Nat.lt_of_lt_of_le hhii (Nat.le_trans (phaseHigh_le_phaseLow _ _ _ _ hlt hpj) hloj)

/-- Witness for claim C9 on a concrete one-image swapchain: the framebuffer
destroy precedes the presentable-chain destroy. -/
theorem swapchain_teardown_order_witness :
    (swapchain_drop c9_swapchain).get? 0 = some (DestroyEvent.destroy_framebuffer 3)
      ∧ (swapchain_drop c9_swapchain).get? 2 = some (DestroyEvent.destroy_swapchain 9)
      ∧ (0 : Nat) < 2 :=
  ⟨by decide, by decide,
    (swapchain_teardown_order c9_swapchain).2.2 0 2
      (DestroyEvent.destroy_framebuffer 3) (DestroyEvent.destroy_swapchain 9)
      (by decide) (by decide) (by decide)⟩

end Kamel
